import Mathlib

/-!
Verification development for the ScholarAI Graph-RAG backend
(`backend/main.py`, `backend/retriever.py`, `backend/graph_pipe.py`).

The Python code is shallowly embedded: pure data manipulation becomes Lean
functions, Python exceptions become `Except String`, Python `dict`s (which
preserve insertion order and update values in place) become association
lists with an in-place update operation, JSON values become the `Json`
inductive below, and the external collaborators (Neo4j driver calls, HTTP
calls to the embedding/LLM providers, and Python's `json.loads`) are
passed in as explicit oracle values or functions.
-/

/-- JSON values, as produced by Python's `json.loads`.  `obj` keeps the
key/value insertion order, like Python dicts. -/
inductive Json where
  | null : Json
  | bool (b : Bool) : Json
  | num (n : Int) : Json
  | str (s : String) : Json
  | arr (xs : List Json) : Json
  | obj (kvs : List (String × Json)) : Json

/-- Python truthiness of a JSON value (`None`, `False`, `0`, `""`, `[]`,
`{}` are falsy). -/
def pyTruthy : Json → Bool
  | Json.null => false
  | Json.bool b => b
  | Json.num n => n != 0
  | Json.str s => s != ""
  | Json.arr xs => !xs.isEmpty
  | Json.obj kvs => !kvs.isEmpty

/-- Lookup of a key in a JSON object's key/value list (Python `d.get(k)` /
`d[k]`; dicts have unique keys, so first match suffices). -/
def jLookup (k : String) : List (String × Json) → Option Json
  | [] => none
  | (k2, v) :: rest => if k2 = k then some v else jLookup k rest

/-- Pydantic models from `backend/main.py`. -/
structure Source where
  paper_id : String
  paper_title : String
  pdf_url : String
  chunk_text : String
deriving DecidableEq, Repr

structure GraphNode where
  id : String
  type : String
deriving DecidableEq, Repr

structure GraphEdge where
  source : String
  target : String
  type : String
deriving DecidableEq, Repr

structure Graph where
  nodes : List GraphNode
  edges : List GraphEdge
deriving DecidableEq, Repr

structure StructuredResponse where
  sources : List Source
  graph : Graph
deriving DecidableEq, Repr

/-- The `graph_data` value of one retrieved row as it reaches
`_prepare_structured_data`: either still a raw string (to be passed to
`json.loads`) or already a parsed value. -/
inductive GraphDataField where
  | raw (s : String) : GraphDataField
  | val (v : Json) : GraphDataField

/-- One row of `context_data` as consumed by `_prepare_structured_data`
(the dict keys `paper_id`, `paper_title`, `pdf_url`, `chunk_text`,
`graph_data`). -/
structure PrepRow where
  paper_id : String
  paper_title : String
  pdf_url : String
  chunk_text : String
  graph_data : GraphDataField

/-- Python dict assignment `m[k] = v`: updates the value in place when the
key exists (keeping its position), otherwise appends at the end. -/
def alInsert {α β : Type} [DecidableEq α] (k : α) (v : β) : List (α × β) → List (α × β)
  | [] => [(k, v)]
  | (k2, v2) :: rest => if k2 = k then (k, v) :: rest else (k2, v2) :: alInsert k v rest

/-- Python dict lookup on the association-list model. -/
def alLookup {α β : Type} [DecidableEq α] (k : α) : List (α × β) → Option β
  | [] => none
  | (k2, v2) :: rest => if k2 = k then some v2 else alLookup k rest

/-- The parse step at the top of the row loop of `_prepare_structured_data`:
a string-valued `graph_data` goes through `json.loads`; a
`json.JSONDecodeError` is recovered by substituting `{}`.  `loads` is
Python's `json.loads` as an explicit oracle (`none` = parse error). -/
def rowGd (loads : String → Option Json) : GraphDataField → Json
  | GraphDataField.raw s =>
    match loads s with
    | some j => j
    | none => Json.obj []
  | GraphDataField.val v => v

/-- Python iteration `for e in v` over a graph-fragment collection, where
the loop body subscripts each element with a string key.  Lists iterate
their elements; an empty dict or empty string iterates nothing; every
other shape raises (`TypeError` at the first element or at the `for`
itself). -/
def pyIterElems (v : Json) : Except String (List Json) :=
  match v with
  | Json.arr xs => Except.ok xs
  | Json.obj [] => Except.ok []
  | Json.str "" => Except.ok []
  | _ => Except.error "TypeError: graph fragment collection has unexpected shape"

/-- Evaluation of `e[\x22name\x22]` and `e[\x22type\x22]` followed by the
pydantic `GraphNode` construction: missing keys raise `KeyError`,
non-string values fail validation. -/
def entityFields (e : Json) : Except String (String × String) :=
  match e with
  | Json.obj kvs =>
    match jLookup "name" kvs with
    | none => Except.error "KeyError: name"
    | some nv =>
      match jLookup "type" kvs with
      | none => Except.error "KeyError: type"
      | some tv =>
        match nv, tv with
        | Json.str n, Json.str t => Except.ok (n, t)
        | _, _ => Except.error "ValidationError: GraphNode fields must be strings"
  | _ => Except.error "TypeError: entity element is not a mapping"

/-- Evaluation of `rel[\x22source\x22]`, `rel[\x22target\x22]`,
`rel[\x22type\x22]` followed by the pydantic `GraphEdge` construction. -/
def relFields (e : Json) : Except String (String × String × String) :=
  match e with
  | Json.obj kvs =>
    match jLookup "source" kvs with
    | none => Except.error "KeyError: source"
    | some sv =>
      match jLookup "target" kvs with
      | none => Except.error "KeyError: target"
      | some tv =>
        match jLookup "type" kvs with
        | none => Except.error "KeyError: type"
        | some yv =>
          match sv, tv, yv with
          | Json.str a, Json.str b, Json.str c => Except.ok (a, b, c)
          | _, _, _ => Except.error "ValidationError: GraphEdge fields must be strings"
  | _ => Except.error "TypeError: relationship element is not a mapping"

/-- Key type of the `graph_edges` dict: the `(source, target, type)` tuple. -/
abbrev TripleKey := String × String × String

/-- The entities loop of `_prepare_structured_data`:
`graph_nodes[e[\x22name\x22]] = GraphNode(id=e[\x22name\x22], type=e[\x22type\x22])`. -/
def applyEntities : List Json → List (String × GraphNode) → Except String (List (String × GraphNode))
  | [], gn => Except.ok gn
  | e :: es, gn =>
    match entityFields e with
    | Except.error m => Except.error m
    | Except.ok (n, t) => applyEntities es (alInsert n (GraphNode.mk n t) gn)

/-- The relationships loop of `_prepare_structured_data`:
`graph_edges[key] = GraphEdge(source=…, target=…, type=…)` with
`key = (rel[\x22source\x22], rel[\x22target\x22], rel[\x22type\x22])`. -/
def applyRels : List Json → List (TripleKey × GraphEdge) → Except String (List (TripleKey × GraphEdge))
  | [], ge => Except.ok ge
  | e :: es, ge =>
    match relFields e with
    | Except.error m => Except.error m
    | Except.ok (a, b, c) => applyRels es (alInsert (a, b, c) (GraphEdge.mk a b c) ge)

/-- The graph-accumulation part of one row iteration:
`gd = r.get(\x22graph_data\x22) or \x7b\x7d` followed by the two loops over
`gd.get(\x22entities\x22, [])` and `gd.get(\x22relationships\x22, [])`.
A truthy non-dict `gd` raises `AttributeError` at `gd.get`. -/
def gdMaps (gdv : Json) (gn : List (String × GraphNode)) (ge : List (TripleKey × GraphEdge)) :
    Except String (List (String × GraphNode) × List (TripleKey × GraphEdge)) :=
  let gd := if pyTruthy gdv then gdv else Json.obj []
  match gd with
  | Json.obj kvs =>
    match pyIterElems ((jLookup "entities" kvs).getD (Json.arr [])) with
    | Except.error m => Except.error m
    | Except.ok ents =>
      match applyEntities ents gn with
      | Except.error m => Except.error m
      | Except.ok gn2 =>
        match pyIterElems ((jLookup "relationships" kvs).getD (Json.arr [])) with
        | Except.error m => Except.error m
        | Except.ok rels =>
          match applyRels rels ge with
          | Except.error m => Except.error m
          | Except.ok ge2 => Except.ok (gn2, ge2)
  | _ => Except.error "AttributeError: graph fragment is not a mapping"

/-- Mutable state of the loop in `_prepare_structured_data`. -/
structure PrepSt where
  sources : List Source
  graph_nodes : List (String × GraphNode)
  graph_edges : List (TripleKey × GraphEdge)
  context_for_llm : String
  seen_chunks : List String

/-- The `Source` record built from a row. -/
def sourceOfRow (r : PrepRow) : Source :=
  Source.mk r.paper_id r.paper_title r.pdf_url r.chunk_text

/-- The context block appended per first-occurrence row in the server path:
`f\x22Paper: \x7br[chunk keys]\x7d…\x22` with a trailing blank line. -/
def serverBlock (r : PrepRow) : String :=
  "Paper: " ++ r.paper_title ++ "\nChunk: " ++ r.chunk_text ++ "\n\n"

/-- The dedup-and-collect block of one row iteration (lines 116–125 of
`backend/main.py`): a chunk text not yet seen appends a `Source`, extends
the LLM context, and is added to `seen_chunks`. -/
def sourceStep (st : PrepSt) (r : PrepRow) : PrepSt :=
  if r.chunk_text ∈ st.seen_chunks then st
  else
    { st with
      sources := st.sources ++ [sourceOfRow r]
      context_for_llm := st.context_for_llm ++ serverBlock r
      seen_chunks := r.chunk_text :: st.seen_chunks }

/-- One iteration of the row loop of `_prepare_structured_data`: parse
`graph_data` (recovering a JSON decode error as `\x7b\x7d`), dedup/collect the
source, then accumulate the graph maps (which can raise). -/
def processRow (loads : String → Option Json) (st : PrepSt) (r : PrepRow) : Except String PrepSt :=
  let gdv := rowGd loads r.graph_data
  let st1 := sourceStep st r
  match gdMaps gdv st1.graph_nodes st1.graph_edges with
  | Except.error m => Except.error m
  | Except.ok (gn, ge) => Except.ok { st1 with graph_nodes := gn, graph_edges := ge }

/-- The row loop of `_prepare_structured_data`. -/
def prepLoop (loads : String → Option Json) : PrepSt → List PrepRow → Except String PrepSt
  | st, [] => Except.ok st
  | st, r :: rs =>
    match processRow loads st r with
    | Except.error m => Except.error m
    | Except.ok st1 => prepLoop loads st1 rs

/-- Initial state of `_prepare_structured_data`. -/
def prepInit : PrepSt :=
  PrepSt.mk [] [] [] "" []

/-- Shallow embedding of `_prepare_structured_data` from `backend/main.py`
(lines 101–140).  `loads` is Python's `json.loads` as an oracle; a raised
Python exception is an `Except.error`. -/
def prepare_structured_data (loads : String → Option Json) (context_data : List PrepRow) :
    Except String (StructuredResponse × String) :=
  match prepLoop loads prepInit context_data with
  | Except.error m => Except.error m
  | Except.ok st =>
    Except.ok
      (StructuredResponse.mk st.sources
        (Graph.mk (st.graph_nodes.map Prod.snd) (st.graph_edges.map Prod.snd)),
       st.context_for_llm)

/-- One row of the result of `GraphRetriever.graph_expansion`
(`backend/retriever.py` lines 86–91): the five returned columns. -/
structure ExpRow where
  paper_id : String
  paper_title : String
  pdf_url : String
  chunk_text : String
  graph_data : String
deriving DecidableEq, Repr

/-- Conversion of an expansion row into the dict shape consumed by
`_prepare_structured_data` (its `graph_data` is still the raw string
stored on the chunk). -/
def rowToPrep (r : ExpRow) : PrepRow :=
  PrepRow.mk r.paper_id r.paper_title r.pdf_url r.chunk_text (GraphDataField.raw r.graph_data)

/-- Nodes of the Neo4j store: `Chunk`, `Paper` and `Entity` nodes,
identified by their `id` / `name` property. -/
inductive GNode where
  | chunk (id : String) : GNode
  | paper (id : String) : GNode
  | entity (name : String) : GNode
deriving DecidableEq, Repr

/-- Relationship kinds traversed by the expansion query. -/
inductive EKind where
  | mentions : EKind
  | has_chunk : EKind
deriving DecidableEq, Repr

/-- A stored relationship.  `MENTIONS` runs from a chunk to an entity,
`HAS_CHUNK` from a paper to a chunk; the expansion pattern treats both as
traversable in either direction.  `MERGE` in the uploader guarantees at
most one relationship per (kind, src, tgt), so a relationship is
identified by this triple. -/
structure GEdge where
  kind : EKind
  src : GNode
  tgt : GNode
deriving DecidableEq, Repr

/-- Properties of a stored `Chunk` node (`graph_data` may be absent, hence
the `coalesce(chunk.graph_data, \x22\x22)` in the query). -/
structure ChunkRec where
  id : String
  text : String
  graph_data : Option String
deriving DecidableEq, Repr

/-- Properties of a stored `Paper` node (`pdf_url` may be absent, hence
the `coalesce(p.pdf_url, \x22\x22)`). -/
structure PaperRec where
  id : String
  title : String
  pdf_url : Option String
deriving DecidableEq, Repr

/-- The graph store as seen by the expansion query.  Chunk and paper nodes
appearing in `edges` are looked up in `chunks` / `papers` for their
properties. -/
structure GraphDB where
  chunks : List ChunkRec
  papers : List PaperRec
  edges : List GEdge

/-- First-occurrence deduplication with an accumulator of already-seen
elements (used to model `DISTINCT` deterministically). -/
def dedupFirstAux {α : Type} [DecidableEq α] (seen : List α) : List α → List α
  | [] => []
  | x :: xs =>
    if x ∈ seen then dedupFirstAux seen xs
    else x :: dedupFirstAux (x :: seen) xs

/-- First-occurrence deduplication. -/
def dedupFirst {α : Type} [DecidableEq α] (l : List α) : List α :=
  dedupFirstAux [] l

/-- The far endpoint of an edge when traversed (undirectedly) from `n`. -/
def otherEnd (n : GNode) (e : GEdge) : GNode :=
  if e.src = n then e.tgt else e.src

/-- Edges incident to `n` that the current trail has not used yet (Cypher
paths never repeat a relationship). -/
def incident (db : GraphDB) (n : GNode) (used : List GEdge) : List GEdge :=
  db.edges.filter (fun e => (e.src = n ∨ e.tgt = n) ∧ e ∉ used)

/-- Endpoints of all trails of length 1..depth starting at `n` over
`MENTIONS` / `HAS_CHUNK` edges, traversed undirectedly, never repeating a
relationship — the candidate `c2` bindings of the pattern
`(c)-[:MENTIONS|HAS_CHUNK*1..depth]-(c2)`. -/
def trailEnds (db : GraphDB) (n : GNode) (used : List GEdge) : Nat → List GNode
  | 0 => []
  | Nat.succ d =>
    (incident db n used).bind fun e =>
      otherEnd n e :: trailEnds db (otherEnd n e) (e :: used) d

/-- The chunk ids among a list of nodes (the `c2:Chunk` label check). -/
def chunkEnds (ns : List GNode) : List String :=
  ns.filterMap fun n =>
    match n with
    | GNode.chunk i => some i
    | _ => none

/-- Shallow embedding of the Cypher query of
`GraphRetriever.graph_expansion` (`backend/retriever.py` lines 71–95):
for each seed id, match the chunk, optionally match chunks reachable by
1..depth undirected `MENTIONS`/`HAS_CHUNK` hops (`coalesce(c2, c)` keeps
the seed itself when nothing matches), resolve each collected chunk to
its owning papers, and return the distinct rows. -/
def graph_expansion (db : GraphDB) (chunk_ids : List String) (depth : Nat) : List ExpRow :=
  dedupFirst (chunk_ids.bind fun cid =>
    (db.chunks.filter (fun c => c.id = cid)).bind fun c =>
      let ends := dedupFirst (chunkEnds (trailEnds db (GNode.chunk c.id) [] depth))
      let allc := if ends.isEmpty then [c.id] else ends
      allc.bind fun chid =>
        (db.chunks.filter (fun ch => ch.id = chid)).bind fun ch =>
          (db.papers.filter
              (fun p => GEdge.mk EKind.has_chunk (GNode.paper p.id) (GNode.chunk chid) ∈ db.edges)).map
            fun p => ExpRow.mk p.id p.title (p.pdf_url.getD "") ch.text (ch.graph_data.getD ""))

/-- Codepoint-level model of Python `str.upper` restricted to ASCII: a
lowercase ASCII letter is shifted to its uppercase form, everything else
is unchanged.  (The few non-ASCII codepoints Python uppercases
differently are all replaced by the substitution below anyway.) -/
def pyUpperCp (n : Nat) : Nat :=
  if 97 ≤ n ∧ n ≤ 122 then n - 32 else n

/-- Membership of a codepoint in the character class `[A-Za-z0-9_]` of
the sanitization regex. -/
def isWordCp (n : Nat) : Bool :=
  (48 ≤ n && n ≤ 57) || (65 ≤ n && n ≤ 90) || (97 ≤ n && n ≤ 122) || n == 95

/-- The substitution `re.sub(r\x22[^A-Za-z0-9_]+\x22, \x22_\x22, s)`: every
maximal run of non-word codepoints becomes one underscore (codepoint 95).
`prevBad` records whether the previous codepoint was part of a run. -/
def subNonWordRuns (prevBad : Bool) : List Nat → List Nat
  | [] => []
  | c :: cs =>
    if isWordCp c then c :: subNonWordRuns false cs
    else if prevBad then subNonWordRuns true cs
    else 95 :: subNonWordRuns true cs

/-- Codepoints of the default relationship type `RELATED_TO`. -/
def RELATED_TO_CP : List Nat :=
  [82, 69, 76, 65, 84, 69, 68, 95, 84, 79]

/-- Shallow embedding of `Neo4jUploader._sanitize_rel_type`
(`backend/graph_pipe.py` lines 62–64), with strings as codepoint lists:
`re.sub(r\x22[^A-Za-z0-9_]+\x22, \x22_\x22, (t or \x22RELATED_TO\x22).upper())`.
`none` models Python `None`; the empty list models `\x22\x22` (both falsy). -/
def sanitize_rel_type (t : Option (List Nat)) : List Nat :=
  let base :=
    match t with
    | none => RELATED_TO_CP
    | some s => if s = [] then RELATED_TO_CP else s
  subNonWordRuns false (base.map pyUpperCp)

/-- State of the CLI context-assembly loop in `main` of
`backend/retriever.py` (lines 178–191). -/
structure CliSt where
  seen : List String
  context_parts : List String
  total_len : Nat

/-- The formatted block the CLI appends per kept row:
`f\x22Paper: …\nChunk: …\n\x22`. -/
def cliBlock (r : ExpRow) : String :=
  "Paper: " ++ r.paper_title ++ "\nChunk: " ++ r.chunk_text ++ "\n"

/-- The CLI assembly loop: skip empty or already-seen chunk texts; `break`
(returning the state unchanged) as soon as one block would push
`total_len` over 8000; otherwise append the block. -/
def cliLoop : CliSt → List ExpRow → CliSt
  | st, [] => st
  | st, r :: rs =>
    if r.chunk_text = "" ∨ r.chunk_text ∈ st.seen then cliLoop st rs
    else
      if st.total_len + (cliBlock r).length > 8000 then st
      else
        cliLoop
          (CliSt.mk (r.chunk_text :: st.seen) (st.context_parts ++ [cliBlock r])
            (st.total_len + (cliBlock r).length))
          rs

/-- The assembled CLI context: `\x22\n\x22.join(context_parts)` over the loop
run from the empty state. -/
def cli_context (rows : List ExpRow) : String :=
  String.intercalate "\n" (cliLoop (CliSt.mk [] [] 0) rows).context_parts

/-- Generation configuration of `backend/retriever.py`: `LLM_PROVIDER`
(already lowercased by `.lower()`) and `OPENROUTER_API_KEY`. -/
structure LLMConfig where
  provider : String
  openrouterKey : String

/-- Result of `query_llm(…, stream=True)`: a returned error string, a
fragment generator (whose iteration yields the fragments and then
optionally raises), or an exception escaping the call itself. -/
inductive LLMResult where
  | errS (s : String) : LLMResult
  | gen (frags : List String) (fail : Option String) : LLMResult
  | raised (e : String) : LLMResult

/-- External behavior oracles for one `/query` request: the outcomes of
the embedding call, the vector search, the graph expansion, the two LLM
backends, and `json.loads`. -/
structure RequestEnv where
  embedding : Except String Unit
  search : Except String (List String)
  expansion : Except String (List ExpRow)
  ollamaFrags : List String
  ollamaFail : Option String
  openrouter : Except String (List String × Option String)
  loads : String → Option Json

/-- Shallow embedding of `GraphRetriever.query_llm` with `stream=True`
(`backend/retriever.py` lines 153–160).  The `ollama` branch returns its
generator without any eager request; the `openrouter` branch first checks
the API key (returning an error string when it is unset) and otherwise
issues the eager `create` call, which may raise. -/
def query_llm (cfg : LLMConfig) (env : RequestEnv) (context query : String) : LLMResult :=
  let _prompt := context ++ query
  if cfg.provider = "ollama" then LLMResult.gen env.ollamaFrags env.ollamaFail
  else if cfg.provider = "openrouter" then
    if cfg.openrouterKey = "" then LLMResult.errS "Error: OPENROUTER_API_KEY not set."
    else
      match env.openrouter with
      | Except.error e => LLMResult.raised e
      | Except.ok (frags, fail) => LLMResult.gen frags fail
  else LLMResult.errS "Error: invalid LLM_PROVIDER."

/-- One server-sent event of the `/query` stream: either a `data:` frame
carrying a JSON payload, or the terminal
`event: end` / `data: [DONE]` sentinel. -/
inductive Event where
  | data (payload : Json) : Event
  | endSentinel : Event

/-- JSON rendering of a `GraphNode` (`model_dump`). -/
def nodeJson (n : GraphNode) : Json :=
  Json.obj [("id", Json.str n.id), ("type", Json.str n.type)]

/-- JSON rendering of a `GraphEdge` (`model_dump`). -/
def edgeJson (e : GraphEdge) : Json :=
  Json.obj [("source", Json.str e.source), ("target", Json.str e.target), ("type", Json.str e.type)]

/-- JSON rendering of a `Source` (`model_dump`). -/
def sourceJson (s : Source) : Json :=
  Json.obj
    [("paper_id", Json.str s.paper_id), ("paper_title", Json.str s.paper_title),
     ("pdf_url", Json.str s.pdf_url), ("chunk_text", Json.str s.chunk_text)]

/-- The graph frame payload of `response_generator`. -/
def graphPayload (sd : StructuredResponse) : Json :=
  Json.obj
    [("type", Json.str "graph"), ("nodes", Json.arr (sd.graph.nodes.map nodeJson)),
     ("edges", Json.arr (sd.graph.edges.map edgeJson))]

/-- The metadata frame payload of `response_generator`. -/
def metadataPayload (sd : StructuredResponse) : Json :=
  Json.obj [("type", Json.str "metadata"), ("sources", Json.arr (sd.sources.map sourceJson))]

/-- The text frame payload of `response_generator`. -/
def textPayload (s : String) : Json :=
  Json.obj [("type", Json.str "text"), ("chunk", Json.str s)]

/-- The error frame payload of `response_generator` (line 177 of
`backend/main.py`). -/
def errorPayload : Json :=
  Json.obj [("error", Json.str "Something went wrong")]

/-- A text frame. -/
def textFrame (s : String) : Event :=
  Event.data (textPayload s)

/-- Recognizer for the error frame emitted by the `except` handler. -/
def isErrFrame : Event → Bool
  | Event.data (Json.obj [("error", Json.str _)]) => true
  | _ => false

/-- Recognizer for text frames. -/
def isTextFrame : Event → Bool
  | Event.data (Json.obj (("type", Json.str "text") :: _)) => true
  | _ => false

/-- Iterating the value returned by `query_llm` in the streaming loop
`for token in …`: a generator yields its fragments (optionally raising at
the end); a plain string yields its characters one at a time.  `none`
means the iteration raised after the listed frames. -/
def llmIterate : LLMResult → List String × Bool
  | LLMResult.errS s => (s.data.map fun c => String.mk [c], false)
  | LLMResult.gen frags none => (frags, false)
  | LLMResult.gen frags (some _) => (frags, true)
  | LLMResult.raised _ => ([], true)

/-- Shallow embedding of `response_generator` inside `query_endpoint`
(`backend/main.py` lines 148–179): the four pipeline stages run before
the first yield; any exception reaches the shared `except` handler, which
emits the single generic error frame; the `finally` block always emits
the terminal sentinel. -/
def response_generator (cfg : LLMConfig) (env : RequestEnv) (query : String) : List Event :=
  match env.embedding with
  | Except.error _ => [Event.data errorPayload, Event.endSentinel]
  | Except.ok _ =>
    match env.search with
    | Except.error _ => [Event.data errorPayload, Event.endSentinel]
    | Except.ok _ =>
      match env.expansion with
      | Except.error _ => [Event.data errorPayload, Event.endSentinel]
      | Except.ok rows =>
        match prepare_structured_data env.loads (rows.map rowToPrep) with
        | Except.error _ => [Event.data errorPayload, Event.endSentinel]
        | Except.ok (sd, ctx) =>
          let head := [Event.data (graphPayload sd), Event.data (metadataPayload sd)]
          match llmIterate (query_llm cfg env ctx query) with
          | (texts, false) => head ++ texts.map textFrame ++ [Event.endSentinel]
          | (texts, true) =>
            head ++ texts.map textFrame ++ [Event.data errorPayload, Event.endSentinel]

/-- First-occurrence filtering of rows by chunk text, in encounter order —
the dedup policy of the Context Assembler stated by the specification
("keyed by exact text equality, first occurrence wins"). -/
def dedupRowsBy (seen : List String) : List PrepRow → List PrepRow
  | [] => []
  | r :: rs =>
    if r.chunk_text ∈ seen then dedupRowsBy seen rs
    else r :: dedupRowsBy (r.chunk_text :: seen) rs

/-- Replacement of a chunk graph fragment that fails JSON parsing by the
empty object — the per-unit recovery value of `_prepare_structured_data`. -/
def normalizeRow (loads : String → Option Json) (r : PrepRow) : PrepRow :=
  match r.graph_data with
  | GraphDataField.raw s =>
    match loads s with
    | some _ => r
    | none => { r with graph_data := GraphDataField.val (Json.obj []) }
  | GraphDataField.val _ => r

/-- First-occurrence filtering of the CLI rows: keep the formatted block
of each nonempty, not-yet-seen chunk text, in encounter order. -/
def cliDedup (seen : List String) : List ExpRow → List String
  | [] => []
  | r :: rs =>
    if r.chunk_text = "" ∨ r.chunk_text ∈ seen then cliDedup seen rs
    else cliBlock r :: cliDedup (r.chunk_text :: seen) rs

/-- The budget policy the specification states for the CLI assembler:
starting from a running total, keep blocks until the first one that would
push the total above 8000, and stop there even if later blocks remain. -/
def budgetTake (total : Nat) : List String → List String
  | [] => []
  | p :: ps =>
    if total + p.length > 8000 then []
    else p :: budgetTake (total + p.length) ps

/-- Total length of a list of string blocks. -/
def sumLen (l : List String) : Nat :=
  (l.map String.length).sum

/-- Failure predicate of one `/query` session: some pipeline stage raised,
or the generation iteration raised mid-stream (mirrors the branch
structure of `response_generator`). -/
def sessionFails (cfg : LLMConfig) (env : RequestEnv) (query : String) : Bool :=
  match env.embedding with
  | Except.error _ => true
  | Except.ok _ =>
    match env.search with
    | Except.error _ => true
    | Except.ok _ =>
      match env.expansion with
      | Except.error _ => true
      | Except.ok rows =>
        match prepare_structured_data env.loads (rows.map rowToPrep) with
        | Except.error _ => true
        | Except.ok (_, ctx) => (llmIterate (query_llm cfg env ctx query)).2

/-- A request environment in which every external call succeeds trivially. -/
def envTrivial : RequestEnv :=
  RequestEnv.mk (Except.ok ()) (Except.ok []) (Except.ok []) ["The ", "answer ", "is 42."] none
    (Except.ok ([], none)) (fun _ => none)

/-- A request environment whose graph-expansion call raises
`StoreUnavailable`. -/
def envStoreFail : RequestEnv :=
  RequestEnv.mk (Except.ok ()) (Except.ok []) (Except.error "StoreUnavailable") [] none
    (Except.ok ([], none)) (fun _ => none)

/-- Configuration selecting the local provider. -/
def cfgOllama : LLMConfig :=
  LLMConfig.mk "ollama" ""

/-- Configuration selecting an unknown provider. -/
def cfgUnknown : LLMConfig :=
  LLMConfig.mk "gemini" ""

/-- Configuration selecting the hosted provider without an API key. -/
def cfgNoKey : LLMConfig :=
  LLMConfig.mk "openrouter" ""

/-- A `json.loads` oracle for the concrete fragment `[1]` (valid JSON that
is not an object). -/
def loadsArr : String → Option Json :=
  fun s => if s = "[1]" then some (Json.arr [Json.num 1]) else none

/-- A retrieved row whose stored graph fragment is valid JSON but not an
object. -/
def rowBadGd : PrepRow :=
  PrepRow.mk "p1" "T1" "u1" "c1" (GraphDataField.raw "[1]")

/-- A 3983-character chunk text. -/
def bigChunkA : String :=
  String.mk (List.replicate 3983 'a')

/-- A second, distinct 3985-character chunk text. -/
def bigChunkB : String :=
  String.mk (List.replicate 3985 'b')

/-- A CLI row whose formatted block is exactly 3999 characters long. -/
def cliRowA : ExpRow :=
  ExpRow.mk "p1" "" "" bigChunkA ""

/-- A second CLI row whose formatted block is exactly 4001 characters
long, with a different chunk text. -/
def cliRowB : ExpRow :=
  ExpRow.mk "p2" "" "" bigChunkB ""

theorem mem_subNonWordRuns : ∀ (b : Bool) (l : List Nat) (c : Nat),
    c ∈ subNonWordRuns b l → isWordCp c = true ∧ (c = 95 ∨ c ∈ l) := by
  intro b l
  induction l generalizing b with
  | nil => intro c h; simp [subNonWordRuns] at h
  | cons d ds ih =>
    intro c h
    by_cases hw : isWordCp d
    · rw [subNonWordRuns, if_pos hw] at h
      rcases List.mem_cons.mp h with rfl | h2
      · exact ⟨hw, Or.inr (List.mem_cons_self _ _)⟩
      · rcases ih false c h2 with ⟨h3, h4 | h4⟩
        · exact ⟨h3, Or.inl h4⟩
        · exact ⟨h3, Or.inr (List.mem_cons_of_mem _ h4)⟩
    · rw [subNonWordRuns, if_neg hw] at h
      cases b with
      | true =>
        rw [if_pos rfl] at h
        rcases ih true c h with ⟨h3, h4 | h4⟩
        · exact ⟨h3, Or.inl h4⟩
        · exact ⟨h3, Or.inr (List.mem_cons_of_mem _ h4)⟩
      | false =>
        rw [if_neg (by simp)] at h
        rcases List.mem_cons.mp h with rfl | h2
        · exact ⟨by decide, Or.inl rfl⟩
        · rcases ih true c h2 with ⟨h3, h4 | h4⟩
          · exact ⟨h3, Or.inl h4⟩
          · exact ⟨h3, Or.inr (List.mem_cons_of_mem _ h4)⟩

theorem sanitize_aux (l : List Nat) (c : Nat)
    (hc : c ∈ subNonWordRuns false (l.map pyUpperCp)) :
    isWordCp c = true ∧ ¬(97 ≤ c ∧ c ≤ 122) := by
  rcases mem_subNonWordRuns false _ c hc with ⟨hw, h95 | hmem⟩
  · subst h95; exact ⟨hw, by omega⟩
  · rcases List.mem_map.mp hmem with ⟨d, _, rfl⟩
    refine ⟨hw, ?_⟩
    by_cases hd : 97 ≤ d ∧ d ≤ 122
    · rw [pyUpperCp, if_pos hd]; omega
    · rw [pyUpperCp, if_neg hd]; omega

/-- C7: for every input string, `_sanitize_rel_type` returns a token
whose codepoints all lie in `[A-Za-z0-9_]` with no lowercase letter left
(so the token is uppercase), and a `None` or empty input maps to the
fixed default token `RELATED_TO`. -/
theorem sanitize_rel_type_charset :
    (∀ (t : Option (List Nat)) (c : Nat), c ∈ sanitize_rel_type t →
        isWordCp c = true ∧ ¬(97 ≤ c ∧ c ≤ 122)) ∧
    sanitize_rel_type none = RELATED_TO_CP ∧
    sanitize_rel_type (some []) = RELATED_TO_CP := by
  refine ⟨?_, by decide, by decide⟩
  intro t c hc
  match t with
  | none => exact sanitize_aux RELATED_TO_CP c hc
  | some s => exact sanitize_aux (if s = [] then RELATED_TO_CP else s) c hc

/-- Witness for C7 at the concrete input `me-1`: the first output
codepoint `M` is a word character and not lowercase. -/
theorem sanitize_rel_type_charset_witness :
    isWordCp 77 = true ∧ ¬(97 ≤ 77 ∧ 77 ≤ 122) :=
  sanitize_rel_type_charset.1 (some [109, 101, 45, 49]) 77 (by decide)

/-- C8: with an unknown configured provider, `query_llm` returns the
descriptive error string `Error: invalid LLM_PROVIDER.` instead of
raising; with the hosted provider selected but no API key set, it returns
`Error: OPENROUTER_API_KEY not set.` — in both cases regardless of the
behavior of the external backends. -/
theorem query_llm_error_strings :
    ∀ (cfg : LLMConfig) (env : RequestEnv) (context query : String),
      (cfg.provider ≠ "ollama" → cfg.provider ≠ "openrouter" →
        query_llm cfg env context query = LLMResult.errS "Error: invalid LLM_PROVIDER.") ∧
      (cfg.provider = "openrouter" → cfg.openrouterKey = "" →
        query_llm cfg env context query = LLMResult.errS "Error: OPENROUTER_API_KEY not set.") := by
  intro cfg env context query
  constructor
  · intro h1 h2
    rw [query_llm, if_neg h1, if_neg h2]
  · intro h1 h2
    have h3 : cfg.provider ≠ "ollama" := by rw [h1]; decide
    rw [query_llm, if_neg h3, if_pos h1, if_pos h2]

/-- Witness for C8: an unknown provider `gemini` and a key-less
`openrouter` configuration both yield the documented error strings. -/
theorem query_llm_error_strings_witness :
    query_llm cfgUnknown envTrivial "" "" = LLMResult.errS "Error: invalid LLM_PROVIDER." ∧
    query_llm cfgNoKey envTrivial "" "" = LLMResult.errS "Error: OPENROUTER_API_KEY not set." :=
  ⟨(query_llm_error_strings cfgUnknown envTrivial "" "").1 (by decide) (by decide),
   (query_llm_error_strings cfgNoKey envTrivial "" "").2 rfl rfl⟩

theorem processRow_ok_shape (loads : String → Option Json) (st st1 : PrepSt) (r : PrepRow)
    (h : processRow loads st r = Except.ok st1) :
    st1.sources = (sourceStep st r).sources ∧
    st1.context_for_llm = (sourceStep st r).context_for_llm ∧
    st1.seen_chunks = (sourceStep st r).seen_chunks := by
  simp only [processRow] at h
  cases hg : gdMaps (rowGd loads r.graph_data) (sourceStep st r).graph_nodes
      (sourceStep st r).graph_edges with
  | error m => rw [hg] at h; cases h
  | ok p =>
    rw [hg] at h
    obtain ⟨gn, ge⟩ := p
    injection h with h1
    subst h1
    exact ⟨rfl, rfl, rfl⟩

theorem prepLoop_sources_ctx (loads : String → Option Json) :
    ∀ (rows : List PrepRow) (st st' : PrepSt), prepLoop loads st rows = Except.ok st' →
      st'.sources = st.sources ++ (dedupRowsBy st.seen_chunks rows).map sourceOfRow ∧
      st'.context_for_llm =
        st.context_for_llm ++ String.join ((dedupRowsBy st.seen_chunks rows).map serverBlock) := by
  intro rows
  induction rows with
  | nil =>
    intro st st' h
    simp only [prepLoop] at h
    injection h with h1
    subst h1
    constructor
    · simp [dedupRowsBy]
    · apply String.ext
      simp [dedupRowsBy, String.join_eq, String.data_append]
  | cons r rs ih =>
    intro st st' h
    simp only [prepLoop] at h
    cases hp : processRow loads st r with
    | error m => rw [hp] at h; cases h
    | ok st1 =>
      rw [hp] at h
      obtain ⟨hs, hc, hsn⟩ := processRow_ok_shape loads st st1 r hp
      obtain ⟨ih1, ih2⟩ := ih st1 st' h
      by_cases hm : r.chunk_text ∈ st.seen_chunks
      · have hss : sourceStep st r = st := by rw [sourceStep, if_pos hm]
        rw [hss] at hs hc hsn
        constructor
        · rw [ih1, hs, hsn]
          simp only [dedupRowsBy, if_pos hm]
        · rw [ih2, hc, hsn]
          simp only [dedupRowsBy, if_pos hm]
      · have h1 : (sourceStep st r).sources = st.sources ++ [sourceOfRow r] := by
          rw [sourceStep, if_neg hm]
        have h2 : (sourceStep st r).context_for_llm = st.context_for_llm ++ serverBlock r := by
          rw [sourceStep, if_neg hm]
        have h3 : (sourceStep st r).seen_chunks = r.chunk_text :: st.seen_chunks := by
          rw [sourceStep, if_neg hm]
        constructor
        · rw [ih1, hs, h1, hsn, h3]
          simp only [dedupRowsBy, if_neg hm, List.map_cons]
          rw [List.append_assoc]
          rfl
        · rw [ih2, hc, h2, hsn, h3]
          simp only [dedupRowsBy, if_neg hm, List.map_cons]
          apply String.ext
          simp [String.join_eq, String.data_append]

theorem dedupRowsBy_nodup : ∀ (rows : List PrepRow) (seen : List String),
    ((dedupRowsBy seen rows).map PrepRow.chunk_text).Nodup ∧
    ∀ r ∈ dedupRowsBy seen rows, r.chunk_text ∉ seen := by
  intro rows
  induction rows with
  | nil => intro seen; simp [dedupRowsBy]
  | cons r rs ih =>
    intro seen
    by_cases hm : r.chunk_text ∈ seen
    · simp only [dedupRowsBy, if_pos hm]
      exact ih seen
    · simp only [dedupRowsBy, if_neg hm]
      obtain ⟨ihn, ihm⟩ := ih (r.chunk_text :: seen)
      constructor
      · simp only [List.map_cons, List.nodup_cons]
        constructor
        · intro hmem
          rcases List.mem_map.mp hmem with ⟨r2, hr2, he⟩
          have hne := ihm r2 hr2
          rw [he] at hne
          exact hne (List.mem_cons_self _ _)
        · exact ihn
      · intro r2 hr2
        rcases List.mem_cons.mp hr2 with rfl | h2
        · exact hm
        · intro hcon
          exact ihm r2 h2 (List.mem_cons_of_mem _ hcon)

theorem mem_dedupRowsBy_texts : ∀ (rows : List PrepRow) (seen : List String) (r : PrepRow),
    r ∈ rows →
    r.chunk_text ∈ seen ∨ r.chunk_text ∈ (dedupRowsBy seen rows).map PrepRow.chunk_text := by
  intro rows
  induction rows with
  | nil => intro seen r h; cases h
  | cons r0 rs ih =>
    intro seen r h
    by_cases hm : r0.chunk_text ∈ seen
    · simp only [dedupRowsBy, if_pos hm]
      rcases List.mem_cons.mp h with rfl | h2
      · exact Or.inl hm
      · exact ih seen r h2
    · simp only [dedupRowsBy, if_neg hm, List.map_cons]
      rcases List.mem_cons.mp h with rfl | h2
      · exact Or.inr (List.mem_cons_self _ _)
      · rcases ih (r0.chunk_text :: seen) r h2 with hin | hin
        · rcases List.mem_cons.mp hin with he | hseen
          · exact Or.inr (he ▸ List.mem_cons_self _ _)
          · exact Or.inl hseen
        · exact Or.inr (List.mem_cons_of_mem _ hin)

theorem prepare_sources_spec (loads : String → Option Json) (rows : List PrepRow)
    (out : StructuredResponse × String)
    (h : prepare_structured_data loads rows = Except.ok out) :
    out.1.sources = (dedupRowsBy [] rows).map sourceOfRow ∧
    (out.1.sources.map Source.chunk_text).Nodup ∧
    ∀ r ∈ rows, r.chunk_text ∈ out.1.sources.map Source.chunk_text := by
  rw [prepare_structured_data] at h
  cases hp : prepLoop loads prepInit rows with
  | error m => rw [hp] at h; cases h
  | ok st =>
    rw [hp] at h
    injection h with h1
    obtain ⟨hs, _⟩ := prepLoop_sources_ctx loads rows prepInit st hp
    have hsrc : out.1.sources = (dedupRowsBy [] rows).map sourceOfRow := by
      rw [← h1]
      simpa [prepInit] using hs
    have hcomp : (Source.chunk_text ∘ sourceOfRow) = PrepRow.chunk_text := rfl
    refine ⟨hsrc, ?_, ?_⟩
    · rw [hsrc, List.map_map, hcomp]
      exact (dedupRowsBy_nodup rows []).1
    · intro r hr
      rcases mem_dedupRowsBy_texts rows [] r hr with h0 | h0
      · cases h0
      · rw [hsrc, List.map_map, hcomp]
        exact h0

/-- C4: whenever `_prepare_structured_data` returns, its `Source` list is
exactly the first occurrence (in encounter order) of each distinct chunk
text — keyed by exact text equality, not identifier — so no two entries
share the same text, and every input row's text appears. -/
theorem assembler_dedup_by_text (loads : String → Option Json) (rows : List PrepRow)
    (out : StructuredResponse × String)
    (h : prepare_structured_data loads rows = Except.ok out) :
    out.1.sources = (dedupRowsBy [] rows).map sourceOfRow ∧
    (out.1.sources.map Source.chunk_text).Nodup ∧
    ∀ r ∈ rows, r.chunk_text ∈ out.1.sources.map Source.chunk_text :=
  prepare_sources_spec loads rows out h

/-- Witness for C4 at a concrete two-row input with a duplicated chunk
text: the produced source texts are duplicate-free. -/
theorem assembler_dedup_by_text_witness :
    (((StructuredResponse.mk [Source.mk "p" "t" "u" "c"] (Graph.mk [] []),
        ("Paper: t\nChunk: c\n\n" : String)).1.sources.map Source.chunk_text)).Nodup :=
  (assembler_dedup_by_text (fun _ => none)
      [PrepRow.mk "p" "t" "u" "c" (GraphDataField.raw "x"),
       PrepRow.mk "p" "t" "u" "c" (GraphDataField.raw "x")]
      (StructuredResponse.mk [Source.mk "p" "t" "u" "c"] (Graph.mk [] []),
        ("Paper: t\nChunk: c\n\n" : String)) (by rfl)).2.1

theorem alInsert_idem {α β : Type} [DecidableEq α] :
    ∀ (m : List (α × β)) (k : α) (v : β), alInsert k v (alInsert k v m) = alInsert k v m := by
  intro m
  induction m with
  | nil => intro k v; simp [alInsert]
  | cons kv rest ih =>
    intro k v
    obtain ⟨k2, v2⟩ := kv
    by_cases hk : k2 = k
    · simp [alInsert, hk]
    · simp only [alInsert, if_neg hk]
      rw [ih]

theorem alLookup_alInsert_self {α β : Type} [DecidableEq α] :
    ∀ (m : List (α × β)) (k : α) (v : β), alLookup k (alInsert k v m) = some v := by
  intro m
  induction m with
  | nil => intro k v; simp [alInsert, alLookup]
  | cons kv rest ih =>
    intro k v
    obtain ⟨k2, v2⟩ := kv
    by_cases hk : k2 = k
    · simp [alInsert, alLookup, hk]
    · simp only [alInsert, if_neg hk, alLookup]
      exact ih k v

theorem mem_keys_alInsert {α β : Type} [DecidableEq α] :
    ∀ (m : List (α × β)) (k a : α) (v : β),
      a ∈ (alInsert k v m).map Prod.fst ↔ a = k ∨ a ∈ m.map Prod.fst := by
  intro m
  induction m with
  | nil => intro k a v; simp [alInsert]
  | cons kv rest ih =>
    intro k a v
    obtain ⟨k2, v2⟩ := kv
    by_cases hk : k2 = k
    · subst hk
      simp [alInsert]
    · simp only [alInsert, if_neg hk, List.map_cons, List.mem_cons, ih]
      tauto

theorem alInsert_keys_nodup {α β : Type} [DecidableEq α] :
    ∀ (m : List (α × β)) (k : α) (v : β),
      (m.map Prod.fst).Nodup → ((alInsert k v m).map Prod.fst).Nodup := by
  intro m
  induction m with
  | nil => intro k v _; simp [alInsert]
  | cons kv rest ih =>
    intro k v h
    obtain ⟨k2, v2⟩ := kv
    simp only [List.map_cons, List.nodup_cons] at h
    by_cases hk : k2 = k
    · subst hk
      have he : alInsert k2 v ((k2, v2) :: rest) = (k2, v) :: rest := by
        simp [alInsert]
      rw [he]
      simp only [List.map_cons, List.nodup_cons]
      exact h
    · simp only [alInsert, if_neg hk, List.map_cons, List.nodup_cons]
      constructor
      · intro hm
        rcases (mem_keys_alInsert rest k k2 v).mp hm with he | hm2
        · exact hk he
        · exact h.1 hm2
      · exact ih k v h.2

theorem alInsert_pres {α β : Type} [DecidableEq α] (P : α × β → Prop) :
    ∀ (m : List (α × β)) (k : α) (v : β),
      (∀ x ∈ m, P x) → P (k, v) → ∀ x ∈ alInsert k v m, P x := by
  intro m
  induction m with
  | nil =>
    intro k v _ hkv x hx
    simp only [alInsert, List.mem_singleton] at hx
    exact hx ▸ hkv
  | cons kv rest ih =>
    intro k v h hkv x hx
    obtain ⟨k2, v2⟩ := kv
    by_cases hk : k2 = k
    · simp only [alInsert, if_pos hk, List.mem_cons] at hx
      rcases hx with rfl | hx
      · exact hkv
      · exact h x (List.mem_cons_of_mem _ hx)
    · simp only [alInsert, if_neg hk, List.mem_cons] at hx
      rcases hx with rfl | hx
      · exact h _ (List.mem_cons_self _ _)
      · exact ih k v (fun y hy => h y (List.mem_cons_of_mem _ hy)) hkv x hx

/-- Well-formedness of the accumulated node map: keys are unique and each
stored node's `id` equals its key. -/
def NodesInv (gn : List (String × GraphNode)) : Prop :=
  (gn.map Prod.fst).Nodup ∧ ∀ x ∈ gn, x.2.id = x.1

/-- Well-formedness of the accumulated edge map: keys are unique and each
stored edge's `(source, target, type)` triple equals its key. -/
def EdgesInv (ge : List (TripleKey × GraphEdge)) : Prop :=
  (ge.map Prod.fst).Nodup ∧ ∀ x ∈ ge, (x.2.source, x.2.target, x.2.type) = x.1

theorem applyEntities_inv :
    ∀ (es : List Json) (gn gn' : List (String × GraphNode)),
      applyEntities es gn = Except.ok gn' → NodesInv gn → NodesInv gn' := by
  intro es
  induction es with
  | nil =>
    intro gn gn' h hi
    simp only [applyEntities] at h
    injection h with h1
    exact h1 ▸ hi
  | cons e es ih =>
    intro gn gn' h hi
    simp only [applyEntities] at h
    cases hf : entityFields e with
    | error m => rw [hf] at h; cases h
    | ok p =>
      rw [hf] at h
      obtain ⟨n, t⟩ := p
      refine ih _ _ h ⟨?_, ?_⟩
      · exact alInsert_keys_nodup gn n (GraphNode.mk n t) hi.1
      · exact alInsert_pres _ gn n (GraphNode.mk n t) hi.2 rfl

theorem applyRels_inv :
    ∀ (es : List Json) (ge ge' : List (TripleKey × GraphEdge)),
      applyRels es ge = Except.ok ge' → EdgesInv ge → EdgesInv ge' := by
  intro es
  induction es with
  | nil =>
    intro ge ge' h hi
    simp only [applyRels] at h
    injection h with h1
    exact h1 ▸ hi
  | cons e es ih =>
    intro ge ge' h hi
    simp only [applyRels] at h
    cases hf : relFields e with
    | error m => rw [hf] at h; cases h
    | ok p =>
      rw [hf] at h
      obtain ⟨a, b, c⟩ := p
      refine ih _ _ h ⟨?_, ?_⟩
      · exact alInsert_keys_nodup ge (a, b, c) (GraphEdge.mk a b c) hi.1
      · exact alInsert_pres _ ge (a, b, c) (GraphEdge.mk a b c) hi.2 rfl

theorem gdMaps_ok_inv (gdv : Json) (gn gn' : List (String × GraphNode))
    (ge ge' : List (TripleKey × GraphEdge))
    (h : gdMaps gdv gn ge = Except.ok (gn', ge')) :
    ∃ ents rels, applyEntities ents gn = Except.ok gn' ∧ applyRels rels ge = Except.ok ge' := by
  simp only [gdMaps] at h
  split at h
  · split at h
    · exact Except.noConfusion h
    · split at h
      · exact Except.noConfusion h
      · split at h
        · exact Except.noConfusion h
        · split at h
          · exact Except.noConfusion h
          · injection h with h5
            obtain ⟨h6, h7⟩ := Prod.mk.inj h5
            subst h6
            subst h7
            exact ⟨_, _, by assumption, by assumption⟩
  · exact Except.noConfusion h

theorem gdMaps_inv (gdv : Json) (gn gn' : List (String × GraphNode))
    (ge ge' : List (TripleKey × GraphEdge))
    (h : gdMaps gdv gn ge = Except.ok (gn', ge')) :
    (NodesInv gn → NodesInv gn') ∧ (EdgesInv ge → EdgesInv ge') := by
  obtain ⟨ents, rels, h1, h2⟩ := gdMaps_ok_inv gdv gn gn' ge ge' h
  exact ⟨fun hi => applyEntities_inv ents gn gn' h1 hi,
         fun hi => applyRels_inv rels ge ge' h2 hi⟩

theorem processRow_graph_inv (loads : String → Option Json) (st st1 : PrepSt) (r : PrepRow)
    (h : processRow loads st r = Except.ok st1) :
    (NodesInv st.graph_nodes → NodesInv st1.graph_nodes) ∧
    (EdgesInv st.graph_edges → EdgesInv st1.graph_edges) := by
  simp only [processRow] at h
  have hgn : (sourceStep st r).graph_nodes = st.graph_nodes := by
    rw [sourceStep]; split <;> rfl
  have hge : (sourceStep st r).graph_edges = st.graph_edges := by
    rw [sourceStep]; split <;> rfl
  cases hg : gdMaps (rowGd loads r.graph_data) (sourceStep st r).graph_nodes
      (sourceStep st r).graph_edges with
  | error m => rw [hg] at h; cases h
  | ok p =>
    rw [hg] at h
    obtain ⟨gn, ge⟩ := p
    injection h with h1
    subst h1
    rw [hgn, hge] at hg
    exact gdMaps_inv _ _ _ _ _ hg

theorem prepLoop_inv (loads : String → Option Json) :
    ∀ (rows : List PrepRow) (st st' : PrepSt), prepLoop loads st rows = Except.ok st' →
      NodesInv st.graph_nodes → EdgesInv st.graph_edges →
      NodesInv st'.graph_nodes ∧ EdgesInv st'.graph_edges := by
  intro rows
  induction rows with
  | nil =>
    intro st st' h hn he
    simp only [prepLoop] at h
    injection h with h1
    subst h1
    exact ⟨hn, he⟩
  | cons r rs ih =>
    intro st st' h hn he
    simp only [prepLoop] at h
    cases hp : processRow loads st r with
    | error m => rw [hp] at h; cases h
    | ok st1 =>
      rw [hp] at h
      obtain ⟨f1, f2⟩ := processRow_graph_inv loads st st1 r hp
      exact ih st1 st' h (f1 hn) (f2 he)

/-- C5: the GraphView node map and edge map are idempotent under
re-insertion of the same entity or relationship triple, lookups after an
insertion return the inserted (last-seen) value deterministically, and in
every output of `_prepare_structured_data` the node ids and the edge
`(source, target, type)` triples are pairwise distinct. -/
theorem graphview_maps_idempotent :
    (∀ (m : List (String × GraphNode)) (k : String) (v : GraphNode),
        alInsert k v (alInsert k v m) = alInsert k v m ∧
        alLookup k (alInsert k v m) = some v) ∧
    (∀ (m : List (TripleKey × GraphEdge)) (k : TripleKey) (v : GraphEdge),
        alInsert k v (alInsert k v m) = alInsert k v m ∧
        alLookup k (alInsert k v m) = some v) ∧
    (∀ (loads : String → Option Json) (rows : List PrepRow) (out : StructuredResponse × String),
        prepare_structured_data loads rows = Except.ok out →
        (out.1.graph.nodes.map GraphNode.id).Nodup ∧
        (out.1.graph.edges.map (fun e => (e.source, e.target, e.type))).Nodup) := by
  refine ⟨fun m k v => ⟨alInsert_idem m k v, alLookup_alInsert_self m k v⟩,
          fun m k v => ⟨alInsert_idem m k v, alLookup_alInsert_self m k v⟩, ?_⟩
  intro loads rows out h
  rw [prepare_structured_data] at h
  cases hp : prepLoop loads prepInit rows with
  | error m => rw [hp] at h; cases h
  | ok st =>
    rw [hp] at h
    injection h with h1
    obtain ⟨hn, he⟩ := prepLoop_inv loads rows prepInit st hp
      ⟨by simp [prepInit], by simp [prepInit]⟩ ⟨by simp [prepInit], by simp [prepInit]⟩
    subst h1
    constructor
    · show ((st.graph_nodes.map Prod.snd).map GraphNode.id).Nodup
      rw [List.map_map]
      have hmap : st.graph_nodes.map (GraphNode.id ∘ Prod.snd) = st.graph_nodes.map Prod.fst :=
        List.map_congr_left (fun x hx => hn.2 x hx)
      rw [hmap]
      exact hn.1
    · show ((st.graph_edges.map Prod.snd).map (fun e => (e.source, e.target, e.type))).Nodup
      rw [List.map_map]
      have hmap : st.graph_edges.map ((fun e => (e.source, e.target, e.type)) ∘ Prod.snd) =
          st.graph_edges.map Prod.fst :=
        List.map_congr_left (fun x hx => he.2 x hx)
      rw [hmap]
      exact he.1

/-- Witness for C5 at a concrete row whose fragment repeats the same
entity and the same relationship triple twice: the output has unique node
ids and unique edge triples. -/
theorem graphview_maps_idempotent_witness :
    (([GraphNode.mk "A" "Method"]).map GraphNode.id).Nodup ∧
    (([GraphEdge.mk "A" "B" "USES"]).map (fun e => (e.source, e.target, e.type))).Nodup :=
  graphview_maps_idempotent.2.2 (fun _ => none)
    [PrepRow.mk "p" "t" "u" "c" (GraphDataField.val (Json.obj
      [("entities", Json.arr
        [Json.obj [("name", Json.str "A"), ("type", Json.str "Method")],
         Json.obj [("name", Json.str "A"), ("type", Json.str "Method")]]),
       ("relationships", Json.arr
        [Json.obj [("source", Json.str "A"), ("target", Json.str "B"), ("type", Json.str "USES")],
         Json.obj [("source", Json.str "A"), ("target", Json.str "B"), ("type", Json.str "USES")]])]))]
    (StructuredResponse.mk [Source.mk "p" "t" "u" "c"]
        (Graph.mk [GraphNode.mk "A" "Method"] [GraphEdge.mk "A" "B" "USES"]),
      ("Paper: t\nChunk: c\n\n" : String)) (by rfl)

theorem processRow_normalize (loads : String → Option Json) (st : PrepSt) (r : PrepRow) :
    processRow loads st (normalizeRow loads r) = processRow loads st r := by
  cases hr : r.graph_data with
  | raw s =>
    cases hl : loads s with
    | some j =>
      have hn : normalizeRow loads r = r := by
        simp only [normalizeRow, hr, hl]
      rw [hn]
    | none =>
      have hn : normalizeRow loads r = { r with graph_data := GraphDataField.val (Json.obj []) } := by
        simp only [normalizeRow, hr, hl]
      rw [hn]
      simp only [processRow]
      have h1 : rowGd loads ({ r with graph_data := GraphDataField.val (Json.obj []) }).graph_data
          = rowGd loads r.graph_data := by
        simp only [rowGd, hr, hl]
      have h2 : sourceStep st { r with graph_data := GraphDataField.val (Json.obj []) } =
          sourceStep st r := rfl
      rw [h1, h2]
  | val v =>
    have hn : normalizeRow loads r = r := by
      simp only [normalizeRow, hr]
    rw [hn]

theorem prepLoop_normalize (loads : String → Option Json) :
    ∀ (rows : List PrepRow) (st : PrepSt),
      prepLoop loads st (rows.map (normalizeRow loads)) = prepLoop loads st rows := by
  intro rows
  induction rows with
  | nil => intro st; rfl
  | cons r rs ih =>
    intro st
    simp only [List.map_cons, prepLoop, processRow_normalize]
    cases hp : processRow loads st r with
    | error m => rfl
    | ok st1 => exact ih st1

theorem prepare_structured_data_normalize (loads : String → Option Json) (rows : List PrepRow) :
    prepare_structured_data loads (rows.map (normalizeRow loads)) =
      prepare_structured_data loads rows := by
  rw [prepare_structured_data, prepare_structured_data, prepLoop_normalize]

/-- Counterexample for C6 as stated: the one-row input whose stored graph
fragment is the valid JSON `[1]` (a truthy non-object) makes
`_prepare_structured_data` raise at `gd.get` instead of substituting an
empty fragment — the call does fail for a data-quality reason. -/
theorem assembler_data_quality_failure :
    prepare_structured_data loadsArr [rowBadGd] =
      Except.error "AttributeError: graph fragment is not a mapping" := by
  rfl

/-- C6 (amended): a content unit whose stored graph fragment fails JSON
parsing has the fragment replaced by an empty value per-unit — the result
is the same as if the fragment had been the empty object — and whenever
the call returns, every input unit's text is present among the produced
`Source` records; however a fragment that parses to a truthy non-object
value (or wrongly shaped entities/relationships) raises and fails the
call. -/
theorem assembler_malformed_recovery :
    (∀ (loads : String → Option Json) (rows : List PrepRow),
        prepare_structured_data loads (rows.map (normalizeRow loads)) =
          prepare_structured_data loads rows) ∧
    (∀ (loads : String → Option Json) (rows : List PrepRow) (out : StructuredResponse × String),
        prepare_structured_data loads rows = Except.ok out →
        ∀ r ∈ rows, r.chunk_text ∈ out.1.sources.map Source.chunk_text) :=
  ⟨prepare_structured_data_normalize,
   fun loads rows out h r hr => (prepare_sources_spec loads rows out h).2.2 r hr⟩

/-- Witness for C6: a row whose fragment fails parsing is still returned —
its text appears in the produced source list. -/
theorem assembler_malformed_recovery_witness :
    ("c" : String) ∈
      ((StructuredResponse.mk [Source.mk "p" "t" "u" "c"] (Graph.mk [] []),
          ("Paper: t\nChunk: c\n\n" : String)).1.sources.map Source.chunk_text) :=
  assembler_malformed_recovery.2 (fun _ => none)
    [PrepRow.mk "p" "t" "u" "c" (GraphDataField.raw "not json")]
    (StructuredResponse.mk [Source.mk "p" "t" "u" "c"] (Graph.mk [] []),
      ("Paper: t\nChunk: c\n\n" : String)) (by rfl)
    (PrepRow.mk "p" "t" "u" "c" (GraphDataField.raw "not json"))
    (List.mem_singleton.mpr rfl)

theorem sumLen_cons (x : String) (l : List String) : sumLen (x :: l) = x.length + sumLen l := by
  simp [sumLen]

theorem cliLoop_spec : ∀ (rows : List ExpRow) (st : CliSt),
    (cliLoop st rows).context_parts = st.context_parts ++ budgetTake st.total_len (cliDedup st.seen rows) ∧
    (cliLoop st rows).total_len = st.total_len + sumLen (budgetTake st.total_len (cliDedup st.seen rows)) := by
  intro rows
  induction rows with
  | nil =>
    intro st
    simp [cliLoop, cliDedup, budgetTake, sumLen]
  | cons r rs ih =>
    intro st
    by_cases hs : r.chunk_text = "" ∨ r.chunk_text ∈ st.seen
    · simp only [cliLoop, if_pos hs, cliDedup]
      exact ih st
    · by_cases hb : st.total_len + (cliBlock r).length > 8000
      · simp only [cliLoop, if_neg hs, if_pos hb, cliDedup, budgetTake]
        simp [sumLen]
      · have hstep : cliLoop st (r :: rs) =
            cliLoop (CliSt.mk (r.chunk_text :: st.seen) (st.context_parts ++ [cliBlock r])
              (st.total_len + (cliBlock r).length)) rs := by
          simp only [cliLoop, if_neg hs, if_neg hb]
        have hd : cliDedup st.seen (r :: rs) = cliBlock r :: cliDedup (r.chunk_text :: st.seen) rs := by
          simp only [cliDedup, if_neg hs]
        obtain ⟨ih1, ih2⟩ := ih (CliSt.mk (r.chunk_text :: st.seen)
          (st.context_parts ++ [cliBlock r]) (st.total_len + (cliBlock r).length))
        rw [hstep, hd]
        constructor
        · rw [ih1]
          simp only [budgetTake]
          rw [if_neg hb, List.append_assoc]
          rfl
        · rw [ih2]
          simp only [budgetTake]
          rw [if_neg hb, sumLen_cons]
          omega

theorem budgetTake_le : ∀ (ps : List String) (t : Nat), t ≤ 8000 →
    t + sumLen (budgetTake t ps) ≤ 8000 := by
  intro ps
  induction ps with
  | nil => intro t ht; simp [budgetTake, sumLen]; exact ht
  | cons p ps ih =>
    intro t ht
    by_cases hb : t + p.length > 8000
    · simp only [budgetTake, if_pos hb, sumLen]
      simpa using ht
    · simp only [budgetTake, if_neg hb, sumLen_cons]
      have h2 := ih (t + p.length) (by omega)
      omega

/-- C9 (amended): the CLI context assembler keeps exactly the longest
prefix of the deduplicated blocks that fits the running 8000-character
total — stopping at the first block that would push the total over the
budget even if later blocks remain — so the sum of the kept block lengths
never exceeds 8000 (the joined context string may exceed the budget only
by its newline separators); the streaming server's context assembly
appends every deduplicated block with no budget at all. -/
theorem cli_budget_stops_at_first_overflow :
    (∀ rows : List ExpRow,
        (cliLoop (CliSt.mk [] [] 0) rows).context_parts = budgetTake 0 (cliDedup [] rows) ∧
        sumLen (cliLoop (CliSt.mk [] [] 0) rows).context_parts ≤ 8000) ∧
    (∀ (loads : String → Option Json) (rows : List PrepRow) (out : StructuredResponse × String),
        prepare_structured_data loads rows = Except.ok out →
        out.2 = String.join ((dedupRowsBy [] rows).map serverBlock)) := by
  constructor
  · intro rows
    obtain ⟨h1, _⟩ := cliLoop_spec rows (CliSt.mk [] [] 0)
    constructor
    · simpa using h1
    · rw [h1]
      have h3 := budgetTake_le (cliDedup [] rows) 0 (by omega)
      simpa using h3
  · intro loads rows out h
    rw [prepare_structured_data] at h
    cases hp : prepLoop loads prepInit rows with
    | error m => rw [hp] at h; cases h
    | ok st =>
      rw [hp] at h
      injection h with h1
      obtain ⟨_, hc⟩ := prepLoop_sources_ctx loads rows prepInit st hp
      rw [← h1]
      show st.context_for_llm = String.join ((dedupRowsBy [] rows).map serverBlock)
      rw [hc]
      apply String.ext
      simp [prepInit, String.data_append]

/-- Counterexample for C9 as stated: with blocks of 3999 and 4001
characters the running total reaches exactly 8000, but the assembled CLI
context — `context_parts` joined with newlines — is 8001 characters long,
exceeding the budget. -/
theorem cli_context_exceeds_budget :
    8000 < (cli_context [cliRowA, cliRowB]).length := by
  have hA : bigChunkA.length = 3983 := by
    show (List.replicate 3983 'a').length = 3983
    rw [List.length_replicate]
  have hB : bigChunkB.length = 3985 := by
    show (List.replicate 3985 'b').length = 3985
    rw [List.length_replicate]
  have hblockA : (cliBlock cliRowA).length = 3999 := by
    simp [cliBlock, cliRowA, String.length_append, hA]
    decide
  have hblockB : (cliBlock cliRowB).length = 4001 := by
    simp [cliBlock, cliRowB, String.length_append, hB]
    decide
  have hAne : bigChunkA ≠ "" := by
    intro h
    rw [h] at hA
    exact absurd hA (by decide)
  have hBne : bigChunkB ≠ "" := by
    intro h
    rw [h] at hB
    exact absurd hB (by decide)
  have hABne : bigChunkB ≠ bigChunkA := by
    intro h
    rw [h, hA] at hB
    exact absurd hB (by decide)
  have c1 : ¬(cliRowA.chunk_text = "" ∨ cliRowA.chunk_text ∈ ([] : List String)) := by
    simp [cliRowA]
    exact hAne
  have c2 : ¬(cliRowB.chunk_text = "" ∨ cliRowB.chunk_text ∈ [cliRowA.chunk_text]) := by
    simp [cliRowA, cliRowB]
    exact ⟨hBne, hABne⟩
  have hd : cliDedup [] [cliRowA, cliRowB] = [cliBlock cliRowA, cliBlock cliRowB] := by
    simp only [cliDedup, if_neg c1, if_neg c2]
  have b1 : ¬(0 + (cliBlock cliRowA).length > 8000) := by
    rw [hblockA]
    omega
  have b2 : ¬(0 + (cliBlock cliRowA).length + (cliBlock cliRowB).length > 8000) := by
    rw [hblockA, hblockB]
    omega
  have hbt : budgetTake 0 [cliBlock cliRowA, cliBlock cliRowB] =
      [cliBlock cliRowA, cliBlock cliRowB] := by
    simp only [budgetTake, if_neg b1, if_neg b2]
  have hparts : (cliLoop (CliSt.mk [] [] 0) [cliRowA, cliRowB]).context_parts =
      [cliBlock cliRowA, cliBlock cliRowB] := by
    have hsp := (cliLoop_spec [cliRowA, cliRowB] (CliSt.mk [] [] 0)).1
    simpa [hd, hbt] using hsp
  have hint : String.intercalate "\n" [cliBlock cliRowA, cliBlock cliRowB] =
      cliBlock cliRowA ++ "\n" ++ cliBlock cliRowB := by
    simp [String.intercalate, String.intercalate.go]
  rw [cli_context, hparts, hint, String.length_append, String.length_append, hblockA, hblockB]
  decide

/-- Witness for C9: at a concrete one-row input the server context equals
the join of all deduplicated blocks. -/
theorem cli_budget_stops_at_first_overflow_witness :
    ("Paper: t\nChunk: c\n\n" : String) =
      String.join ((dedupRowsBy []
        [PrepRow.mk "p" "t" "u" "c" (GraphDataField.raw "x")]).map serverBlock) :=
  cli_budget_stops_at_first_overflow.2 (fun _ => none)
    [PrepRow.mk "p" "t" "u" "c" (GraphDataField.raw "x")]
    (StructuredResponse.mk [Source.mk "p" "t" "u" "c"] (Graph.mk [] []),
      ("Paper: t\nChunk: c\n\n" : String)) (by rfl)

theorem isErrFrame_textFrame (s : String) : isErrFrame (textFrame s) = false := rfl

theorem isErrFrame_graphFrame (sd : StructuredResponse) :
    isErrFrame (Event.data (graphPayload sd)) = false := rfl

theorem isErrFrame_metaFrame (sd : StructuredResponse) :
    isErrFrame (Event.data (metadataPayload sd)) = false := rfl

theorem isErrFrame_endSentinel : isErrFrame Event.endSentinel = false := rfl

/-- C1: every `/query` stream ends with the terminal sentinel — even on
mid-stream failure — and on a session where no stage raises and the
generation iteration completes, the observed frame sequence is exactly
one graph frame, one metadata frame, one text frame per fragment in
emission order, and the terminal sentinel. -/
theorem stream_frame_order :
    (∀ (cfg : LLMConfig) (env : RequestEnv) (query : String),
        ∃ pfx, response_generator cfg env query = pfx ++ [Event.endSentinel]) ∧
    (∀ (cfg : LLMConfig) (env : RequestEnv) (query : String) (ids : List String)
        (rows : List ExpRow) (sd : StructuredResponse) (ctx : String) (texts : List String),
        env.embedding = Except.ok () →
        env.search = Except.ok ids →
        env.expansion = Except.ok rows →
        prepare_structured_data env.loads (rows.map rowToPrep) = Except.ok (sd, ctx) →
        llmIterate (query_llm cfg env ctx query) = (texts, false) →
        response_generator cfg env query =
          [Event.data (graphPayload sd), Event.data (metadataPayload sd)] ++
            texts.map textFrame ++ [Event.endSentinel]) := by
  constructor
  · intro cfg env query
    cases h1 : env.embedding with
    | error e => exact ⟨[Event.data errorPayload], by simp [response_generator, h1]⟩
    | ok u =>
      cases h2 : env.search with
      | error e => exact ⟨[Event.data errorPayload], by simp [response_generator, h1, h2]⟩
      | ok ids =>
        cases h3 : env.expansion with
        | error e => exact ⟨[Event.data errorPayload], by simp [response_generator, h1, h2, h3]⟩
        | ok rows =>
          cases h4 : prepare_structured_data env.loads (rows.map rowToPrep) with
          | error m =>
            exact ⟨[Event.data errorPayload], by simp [response_generator, h1, h2, h3, h4]⟩
          | ok p =>
            obtain ⟨sd, ctx⟩ := p
            cases hit : llmIterate (query_llm cfg env ctx query) with
            | mk texts b =>
              cases b with
              | false =>
                refine ⟨[Event.data (graphPayload sd), Event.data (metadataPayload sd)] ++
                  texts.map textFrame, ?_⟩
                simp [response_generator, h1, h2, h3, h4, hit]
              | true =>
                refine ⟨[Event.data (graphPayload sd), Event.data (metadataPayload sd)] ++
                  texts.map textFrame ++ [Event.data errorPayload], ?_⟩
                simp [response_generator, h1, h2, h3, h4, hit]
  · intro cfg env query ids rows sd ctx texts h1 h2 h3 h4 h5
    simp only [response_generator, h1, h2, h3, h4, h5]

/-- Witness for C1: with a trivially succeeding environment and the local
provider emitting three fragments, the stream is graph, metadata, three
texts, terminal. -/
theorem stream_frame_order_witness :
    response_generator cfgOllama envTrivial "q" =
      [Event.data (graphPayload (StructuredResponse.mk [] (Graph.mk [] []))),
       Event.data (metadataPayload (StructuredResponse.mk [] (Graph.mk [] [])))] ++
        (["The ", "answer ", "is 42."].map textFrame) ++ [Event.endSentinel] :=
  stream_frame_order.2 cfgOllama envTrivial "q" [] []
    (StructuredResponse.mk [] (Graph.mk [] [])) "" ["The ", "answer ", "is 42."]
    rfl rfl rfl (by rfl) (by rfl)

/-- Counterexample for C2 as stated: when the store raises during
expansion, the client observes a single error frame and the terminal
frame, but the error frame has the shape `{error: string}` — it carries
no `type` key and no `message` key, contradicting the claimed
`{type: \x22error\x22, message: string}` form. -/
theorem error_frame_shape_counterexample :
    response_generator cfgOllama envStoreFail "q" =
      [Event.data (Json.obj [("error", Json.str "Something went wrong")]), Event.endSentinel] ∧
    jLookup "type" [("error", Json.str "Something went wrong")] = none ∧
    jLookup "message" [("error", Json.str "Something went wrong")] = none :=
  ⟨rfl, rfl, rfl⟩

/-- C2 (amended): if any exception is raised in the pipeline stages or
during generation, the client observes exactly one error frame — of the
shape `{error: string}` with a fixed generic message — followed
immediately by the terminal frame, with no error or text frames after it
and no error frame before it. -/
theorem error_frame_then_terminal :
    ∀ (cfg : LLMConfig) (env : RequestEnv) (query : String),
      sessionFails cfg env query = true →
      ∃ pfx, response_generator cfg env query =
          pfx ++ [Event.data errorPayload, Event.endSentinel] ∧
        ∀ e ∈ pfx, isErrFrame e = false := by
  intro cfg env query hf
  simp only [sessionFails] at hf
  cases h1 : env.embedding with
  | error e => exact ⟨[], by simp [response_generator, h1], by simp⟩
  | ok u =>
    simp only [h1] at hf
    cases h2 : env.search with
    | error e => exact ⟨[], by simp [response_generator, h1, h2], by simp⟩
    | ok ids =>
      simp only [h2] at hf
      cases h3 : env.expansion with
      | error e => exact ⟨[], by simp [response_generator, h1, h2, h3], by simp⟩
      | ok rows =>
        simp only [h3] at hf
        cases h4 : prepare_structured_data env.loads (rows.map rowToPrep) with
        | error m => exact ⟨[], by simp [response_generator, h1, h2, h3, h4], by simp⟩
        | ok p =>
          simp only [h4] at hf
          obtain ⟨sd, ctx⟩ := p
          cases hit : llmIterate (query_llm cfg env ctx query) with
          | mk texts b =>
            simp only [hit] at hf
            cases b with
            | false => cases hf
            | true =>
              refine ⟨[Event.data (graphPayload sd), Event.data (metadataPayload sd)] ++
                texts.map textFrame, ?_, ?_⟩
              · simp [response_generator, h1, h2, h3, h4, hit]
              intro e he
              rcases List.mem_append.mp he with h5 | h5
              · rcases List.mem_cons.mp h5 with rfl | h6
                · exact isErrFrame_graphFrame sd
                · rcases List.mem_cons.mp h6 with rfl | h7
                  · exact isErrFrame_metaFrame sd
                  · cases h7
              · rcases List.mem_map.mp h5 with ⟨s, _, rfl⟩
                exact isErrFrame_textFrame s

/-- Witness for C2: the store-failure environment produces the error
frame immediately followed by the terminal sentinel, with nothing before
them. -/
theorem error_frame_then_terminal_witness :
    ∃ pfx, response_generator cfgOllama envStoreFail "q" =
        pfx ++ [Event.data errorPayload, Event.endSentinel] ∧
      ∀ e ∈ pfx, isErrFrame e = false :=
  error_frame_then_terminal cfgOllama envStoreFail "q" rfl

/-- C10: when `query_llm` returns a plain error string instead of a
generator during a streaming request, the endpoint iterates the string
character by character, emitting one text frame per character of the
error message, and the client receives no error frame. -/
theorem error_string_streams_as_chars :
    ∀ (cfg : LLMConfig) (env : RequestEnv) (query : String) (ids : List String)
      (rows : List ExpRow) (sd : StructuredResponse) (ctx : String) (s : String),
      env.embedding = Except.ok () →
      env.search = Except.ok ids →
      env.expansion = Except.ok rows →
      prepare_structured_data env.loads (rows.map rowToPrep) = Except.ok (sd, ctx) →
      query_llm cfg env ctx query = LLMResult.errS s →
      response_generator cfg env query =
        [Event.data (graphPayload sd), Event.data (metadataPayload sd)] ++
          (s.data.map fun c => textFrame (String.mk [c])) ++ [Event.endSentinel] ∧
      ∀ e ∈ response_generator cfg env query, isErrFrame e = false := by
  intro cfg env query ids rows sd ctx s h1 h2 h3 h4 h5
  have hresp : response_generator cfg env query =
      [Event.data (graphPayload sd), Event.data (metadataPayload sd)] ++
        (s.data.map fun c => textFrame (String.mk [c])) ++ [Event.endSentinel] := by
    simp only [response_generator, h1, h2, h3, h4, h5, llmIterate]
    rw [List.map_map]
    rfl
  refine ⟨hresp, ?_⟩
  intro e he
  rw [hresp] at he
  rcases List.mem_append.mp he with h6 | h6
  · rcases List.mem_append.mp h6 with h7 | h7
    · rcases List.mem_cons.mp h7 with rfl | h8
      · exact isErrFrame_graphFrame sd
      · rcases List.mem_cons.mp h8 with rfl | h9
        · exact isErrFrame_metaFrame sd
        · cases h9
    · rcases List.mem_map.mp h7 with ⟨c, _, rfl⟩
      exact isErrFrame_textFrame (String.mk [c])
  · rcases List.mem_cons.mp h6 with rfl | h7
    · exact isErrFrame_endSentinel
    · cases h7

/-- Witness for C10: with an unknown provider, the error message is
streamed as per-character text frames. -/
theorem error_string_streams_as_chars_witness :
    response_generator cfgUnknown envTrivial "q" =
      [Event.data (graphPayload (StructuredResponse.mk [] (Graph.mk [] []))),
       Event.data (metadataPayload (StructuredResponse.mk [] (Graph.mk [] [])))] ++
        (("Error: invalid LLM_PROVIDER.").data.map fun c => textFrame (String.mk [c])) ++
        [Event.endSentinel] :=
  (error_string_streams_as_chars cfgUnknown envTrivial "q" [] []
    (StructuredResponse.mk [] (Graph.mk [] [])) "" "Error: invalid LLM_PROVIDER."
    rfl rfl rfl (by rfl) rfl).1

theorem mem_dedupFirstAux {α : Type} [DecidableEq α] :
    ∀ (l : List α) (seen : List α) (a : α),
      a ∈ dedupFirstAux seen l ↔ a ∈ l ∧ a ∉ seen := by
  intro l
  induction l with
  | nil => intro seen a; simp [dedupFirstAux]
  | cons x xs ih =>
    intro seen a
    by_cases hx : x ∈ seen
    · rw [dedupFirstAux, if_pos hx, ih]
      constructor
      · rintro ⟨h1, h2⟩
        exact ⟨List.mem_cons_of_mem _ h1, h2⟩
      · rintro ⟨h1, h2⟩
        rcases List.mem_cons.mp h1 with rfl | h3
        · exact absurd hx h2
        · exact ⟨h3, h2⟩
    · rw [dedupFirstAux, if_neg hx]
      constructor
      · intro h
        rcases List.mem_cons.mp h with rfl | h3
        · exact ⟨List.mem_cons_self _ _, hx⟩
        · obtain ⟨h4, h5⟩ := (ih (x :: seen) a).mp h3
          exact ⟨List.mem_cons_of_mem _ h4, fun hc => h5 (List.mem_cons_of_mem _ hc)⟩
      · rintro ⟨h1, h2⟩
        rcases List.mem_cons.mp h1 with rfl | h3
        · exact List.mem_cons_self _ _
        · by_cases hax : a = x
          · subst hax
            exact List.mem_cons_self _ _
          · refine List.mem_cons_of_mem _ ((ih (x :: seen) a).mpr ⟨h3, ?_⟩)
            intro hc
            rcases List.mem_cons.mp hc with h | h
            · exact hax h
            · exact h2 h

theorem mem_dedupFirst {α : Type} [DecidableEq α] (l : List α) (a : α) :
    a ∈ dedupFirst l ↔ a ∈ l := by
  rw [dedupFirst, mem_dedupFirstAux]
  simp

/-- C3: expansion with `maxDepth = 0` returns exactly the rows pairing
each resolvable seed chunk with its owning papers — no additional hops
and no chunks beyond the seeds. -/
theorem graph_expansion_depth_zero :
    ∀ (db : GraphDB) (ids : List String) (row : ExpRow),
      row ∈ graph_expansion db ids 0 ↔
      ∃ cid, cid ∈ ids ∧ ∃ c, c ∈ db.chunks ∧ c.id = cid ∧
        ∃ p, p ∈ db.papers ∧
          GEdge.mk EKind.has_chunk (GNode.paper p.id) (GNode.chunk c.id) ∈ db.edges ∧
          row = ExpRow.mk p.id p.title (p.pdf_url.getD "") c.text (c.graph_data.getD "") := by
  intro db ids row
  rw [graph_expansion, mem_dedupFirst]
  simp only [trailEnds, chunkEnds, List.filterMap_nil, dedupFirst, dedupFirstAux,
    List.isEmpty_nil, if_true, List.mem_bind, List.mem_filter, List.mem_map,
    List.mem_singleton, decide_eq_true_eq]
  constructor
  · rintro ⟨cid, hcid, c, ⟨hc, hcide⟩, chid, hchid, ch, ⟨hch, hchide⟩, p, ⟨hp, hedge⟩, hrow⟩
    refine ⟨cid, hcid, ch, hch, ?_, p, hp, ?_, ?_⟩
    · rw [hchide, hchid, hcide]
    · rw [hchide]
      exact hedge
    · exact hrow.symm
  · rintro ⟨cid, hcid, c, hc, hcide, p, hp, hedge, hrow⟩
    exact ⟨cid, hcid, c, ⟨hc, hcide⟩, c.id, rfl, c, ⟨hc, rfl⟩, p, ⟨hp, hedge⟩, hrow.symm⟩

/-- Witness for C3 on a one-paper, one-chunk fixture store: depth-0
expansion of the seed `c1` contains exactly its (paper, chunk) row. -/
theorem graph_expansion_depth_zero_witness :
    ExpRow.mk "P1" "T1" "" "text1" "" ∈
      graph_expansion
        (GraphDB.mk [ChunkRec.mk "c1" "text1" none] [PaperRec.mk "P1" "T1" none]
          [GEdge.mk EKind.has_chunk (GNode.paper "P1") (GNode.chunk "c1")])
        ["c1"] 0 :=
  (graph_expansion_depth_zero
      (GraphDB.mk [ChunkRec.mk "c1" "text1" none] [PaperRec.mk "P1" "T1" none]
        [GEdge.mk EKind.has_chunk (GNode.paper "P1") (GNode.chunk "c1")])
      ["c1"] (ExpRow.mk "P1" "T1" "" "text1" "")).mpr
    ⟨"c1", List.mem_singleton.mpr rfl,
     ChunkRec.mk "c1" "text1" none, List.mem_singleton.mpr rfl, rfl,
     PaperRec.mk "P1" "T1" none, List.mem_singleton.mpr rfl,
     List.mem_singleton.mpr rfl, rfl⟩
